import Mathlib

set_option linter.unusedVariables false

/-!
Shallow embedding of the knowledge-graph embedding utilities of
`graphistry/embed_utils.py` (class `HeterographEmbedModuleMixin`,
class `EmbedDistScore`, class `SubgraphIterator`), together with
theorems checking the natural-language design document against it.

Tensors of shape (n, d) are modelled row-wise; a single row is a
`List ℚ`.  Integer node/relation ids are `Nat`.  Randomness (edge
sampling, corruption coin flips, uniform id draws, the permutation
underlying `torch.utils.data.random_split`) is passed in as explicit
parameters: a theorem quantifying over those parameters covers every
possible draw, and the bound of `torch.randint(high = n, ...)` becomes
the hypothesis that the draw function is everywhere `< n`.
-/

namespace EmbedUtils

/-- A triplet (head id, relation id, tail id), the rows of the
`(E, 3)` triplet matrix built by `_preprocess_embedding_data`. -/
abbrev Trip := Nat × Nat × Nat

/-! ### `EmbedDistScore` (embed_utils.py lines 45–56) -/

/-- `v.norm(p=1, dim=1)` for a single row `v`: the sum of absolute values. -/
def l1norm (v : List ℚ) : ℚ := (v.map (fun x => |x|)).sum

namespace EmbedDistScore

/-- `TransE(h, r, t) = (h + r - t).norm(p=1, dim=1)`, per row. -/
def TransE (h r t : List ℚ) : ℚ :=
  l1norm (((h.zip r).zip t).map (fun p => p.1.1 + p.1.2 - p.2))

/-- `DistMult(h, r, t) = (h * r * t).sum(dim=1)`, per row. -/
def DistMult (h r t : List ℚ) : ℚ :=
  (((h.zip r).zip t).map (fun p => p.1.1 * p.1.2 * p.2)).sum

/-- `RotatE(h, r, t) = -(h * r - t).norm(p=1, dim=1)`, per row. -/
def RotatE (h r t : List ℚ) : ℚ :=
  -(l1norm (((h.zip r).zip t).map (fun p => p.1.1 * p.1.2 - p.2)))

end EmbedDistScore

/-! ### The id registry and `predict_links` (embed_utils.py lines 327–378)

`pandas.Series.map(dict)` sends a key present in the dict to its value
and an absent key to NaN; we model a mapped cell as `Option Nat`, with
`none` playing the role of NaN.  A pandas comparison `NaN != x` is
`True`, which matches `none ≠ some x` under `Option` equality. -/

/-- Dictionary lookup, as performed cell-wise by `Series.map(dict)`:
present key goes to its value, absent key to `none` (NaN). -/
def dictGet {α β : Type} [BEq α] (m : List (α × β)) (k : α) : Option β :=
  (m.find? (fun p => p.1 == k)).map Prod.snd

/-- The four id mappings set up by `_preprocess_embedding_data`
(lines 110–114): `_node2id`, `_relation2id`, `_id2node`, `_id2relation`. -/
structure Registry where
  node2id : List (String × Nat)
  relation2id : List (String × Nat)
  id2node : List (Nat × String)
  id2relation : List (Nat × String)

/-- A row of the exploded candidate frame inside `predict_links`:
(source id or NaN, relation id or NaN, candidate destination id). -/
abbrev Candidate := Option Nat × Option Nat × Nat

/-- Lines 356–363 of `predict_links`: map the raw source and relation
labels through the registry (`none` = NaN for unknown labels), attach
`all_nodes = node2id.values()` as the predicted-destination column,
explode it, and drop rows whose source id equals the candidate
destination id.  Note NaN ≠ id, so rows with an unknown source label
survive this filter, exactly as in pandas. -/
def candidateRows (node2id relation2id : List (String × Nat))
    (rows : List (String × String)) : List Candidate :=
  let nodes := rows.map (fun row => dictGet node2id row.1)
  let relations := rows.map (fun row => dictGet relation2id row.2)
  let all_nodes := node2id.map Prod.snd
  let test_df := nodes.zip relations
  let exploded := test_df.flatMap (fun sr => all_nodes.map (fun d => (sr.1, sr.2, d)))
  exploded.filter (fun row => decide (row.1 ≠ some row.2.2))

/-- Lines 371–375 of `predict_links`: map the id columns of the
candidate frame back to raw labels (`map` again sends NaN/missing ids
to NaN, i.e. `none`). -/
def labelRow (reg : Registry) (c : Candidate) :
    Option String × Option String × Option String :=
  (c.1.bind (dictGet reg.id2node),
   c.2.1.bind (dictGet reg.id2relation),
   dictGet reg.id2node c.2.2)

/-- `predict_links(test_df, src, rel, threshold, anomalous)`
(lines 354–378).  `score` stands for `self._score` applied row-wise to
the candidate frame (a sigmoid probability); it receives the raw cell
contents, including a `none` where the pandas frame holds NaN (the
Python code casts that NaN through float32 to int64 at line 365 and
scores the resulting arbitrary id).  The first `result_df` is the
threshold-filtered frame of lines 367–370; lines 371–377 then rebuild
`result_df` from the unfiltered `test_df`, shadowing the filtered one,
which is modelled by the second `let result_df`. -/
def predict_links (reg : Registry) (score : Candidate → ℚ) (threshold : ℚ)
    (anomalous : Bool) (rows : List (String × String)) :
    List (Option String × Option String × Option String) :=
  let test_df := candidateRows reg.node2id reg.relation2id rows
  let result_df :=
    if anomalous then test_df.filter (fun row => decide (score row ≤ threshold))
    else test_df.filter (fun row => decide (threshold ≤ score row))
  let result_df := test_df.map (labelRow reg)
  result_df

/-! ### `SubgraphIterator` and negative sampling (embed_utils.py lines 477–527)

The randomness of `_sample_neg` is made explicit: `coins i` is the
draw `h_o_t[i]` of `torch.randint(high=2, ...)`, and `rh i`, `rt i`
are the draws `random_h[i]`, `random_t[i]` of
`torch.randint(high=num_nodes, ...)`; the `num_nodes` argument is the
`high` bound of those two draws, so theorems that depend on it carry
the hypotheses `rh i < num_nodes` and `rt i < num_nodes`. -/

/-- Row `i` of the corrupted batch: `torch.where(h_o_t == 0, random_h, h)`
for the head and `torch.where(h_o_t == 1, random_t, t)` for the tail
(lines 520–522); the relation column is carried over unchanged. -/
def negTriplet (coins rh rt : Nat → Nat) (i : Nat) (t : Trip) : Trip :=
  (if coins i = 0 then rh i else t.1, t.2.1, if coins i = 1 then rt i else t.2.2)

/-- The corrupted rows `neg_triplets = stack((neg_h, r, neg_t), dim=1)`,
built elementwise over the batch with its row index. -/
def negTriplets (coins rh rt : Nat → Nat) : Nat → List Trip → List Trip
  | _, [] => []
  | i, t :: ts => negTriplet coins rh rt i t :: negTriplets coins rh rt (i + 1) ts

/-- `SubgraphIterator._sample_neg(triplets, num_nodes)` (lines 510–527):
returns `all_triplets = cat((triplets, neg_triplets))` and the label
vector `labels = zeros(len(all_triplets))` with `labels[:len(triplets)] = 1`,
modelled positionally over `range`. -/
def sample_neg (triplets : List Trip) (num_nodes : Nat)
    (coins rh rt : Nat → Nat) : List Trip × List Nat :=
  let neg_triplets := negTriplets coins rh rt 0 triplets
  let all_triplets := triplets ++ neg_triplets
  let labels := (List.range all_triplets.length).map
    (fun i => if i < triplets.length then (1 : Nat) else 0)
  (all_triplets, labels)

/-- A DGL graph as used here: a node-id universe `[0, numNodes)` and an
edge list indexed by edge id, each edge carrying
(source id, edge-type id, destination id) — `find_edges` plus
`edata[dgl.ETYPE]`. -/
structure DGLGraph where
  numNodes : Nat
  edges : List Trip

namespace SubgraphIterator

/-- `SubgraphIterator.__getitem__(i)` (lines 488–508), with the sampled
edge ids `eids` (the draw of `np.random.choice(self.eids, sample_size)`)
and the corruption draws passed explicitly.  The sampled triplets keep
the ids the full graph gave them, `_sample_neg` is called with
`self.num_nodes` — the FULL graph's node count — and the mini-batch
graph is likewise built with `num_nodes=self.num_nodes`. -/
def getItem (g : DGLGraph) (eids : List Nat) (coins rh rt : Nat → Nat) :
    DGLGraph × List Trip × List Nat :=
  let triplets := eids.map (fun e => g.edges.getD e (0, 0, 0))
  let sl := sample_neg triplets g.numNodes coins rh rt
  let sub_g : DGLGraph := ⟨g.numNodes, sl.1⟩
  (sub_g, sl.1, sl.2)

end SubgraphIterator

/-- Modelled from the spec (§4.4 step 2): the set of distinct endpoint
ids touched by a list of sampled edges, whose size the spec calls the
mini-batch's "local node count".  The source has no counterpart of
this; it is defined only to state the relabeling claim. -/
def distinctEndpoints (ts : List Trip) : List Nat :=
  (ts.flatMap (fun t => [t.1, t.2.2])).dedup

/-! ### Train/test split and evaluation (embed_utils.py lines 124–130, 210–217, 467–474) -/

/-- `torch.utils.data.random_split(triplets, [train_size, test_size])`
of lines 126–130 with `train_size = int(train_split * len(triplets))`:
the shuffled index list `perm` (the draw of `randperm`) is cut at
`train_size`, giving the `train_idx` and `test_idx` index lists.
`int()` truncates, i.e. takes the floor for the non-negative values
arising here. -/
def random_split (E : Nat) (train_split : ℚ) (perm : List Nat) :
    List Nat × List Nat :=
  let train_size := (⌊train_split * (E : ℚ)⌋).toNat
  (perm.take train_size, perm.drop train_size)

/-- The split-relevant state of `HeterographEmbedModuleMixin`:
`triplets`, `train_idx`, `test_idx` (both `None` on a fresh instance)
and `_train_split` (the stored split fraction, `None` initially). -/
structure TrainState where
  triplets : List Trip
  train_idx : Option (List Nat)
  test_idx : Option (List Nat)
  stored_split : Option ℚ

/-- The split step of `_preprocess_embedding_data` (lines 124–130):
recompute the split only when `res.train_idx is None or
res._train_split != train_split`. -/
def preprocess_split (st : TrainState) (train_split : ℚ) (perm : List Nat) :
    TrainState :=
  if st.train_idx = none ∨ st.stored_split ≠ some train_split then
    let idx := random_split st.triplets.length train_split perm
    { st with train_idx := some idx.1, test_idx := some idx.2 }
  else st

/-- What the evaluation path of one `embed` call can produce. -/
inductive EvalOutcome where
  | skipped
  | accuracy (q : ℚ)
  | zeroDivisionError
deriving DecidableEq

/-- `HeterographEmbedModuleMixin._eval(threshold)` (lines 467–474):
if `test_idx` is not `None`, score the held-out triplets and return
`len(score[score >= threshold]) / len(score)` — a Python
`ZeroDivisionError` when the held-out set is empty; only when
`test_idx` is `None` does it log the warning and return `None`
(`EvalOutcome.skipped`).  `score` stands for `self._score` applied
row-wise. -/
def eval_step (score : Trip → ℚ) (threshold : ℚ) (st : TrainState) :
    EvalOutcome :=
  match st.test_idx with
  | none => .skipped
  | some idxs =>
      let scores := idxs.map (fun i => score (st.triplets.getD i (0, 0, 0)))
      let kept := scores.filter (fun s => decide (threshold ≤ s))
      if scores.length = 0 then .zeroDivisionError
      else .accuracy ((kept.length : ℚ) / (scores.length : ℚ))

/-- The evaluation behaviour of a fresh-preprocessing `embed` call
(lines 308, 320–321, 210–217): `embed` stores `_train_split`, runs
`_preprocess_embedding_data` (which computes the split, since
`train_idx` is `None` on the rebuild path), then trains; at the end of
each epoch, if `evaluate` was requested and `train_idx` is not `None`,
it calls `_eval(threshold=0.5)`.  Returns `none` when the evaluation
path is never entered (no epoch, evaluation off, or no train_idx), else
the outcome of the first evaluation. -/
def embed_eval_path (st0 : TrainState) (train_split : ℚ) (evaluate : Bool)
    (epochs : Nat) (perm : List Nat) (score : Trip → ℚ) : Option EvalOutcome :=
  let st1 := { st0 with stored_split := some train_split }
  let st2 := preprocess_split st1 train_split perm
  if 0 < epochs ∧ evaluate = true ∧ st2.train_idx ≠ none then
    some (eval_step score (1 / 2) st2)
  else none

/-! ### Warm start (embed_utils.py lines 297–307 and 181–184) -/

/-- The model-rebuild-relevant state of the mixin: `_relation`
(`None` on a fresh instance), `_use_feat`, `_kg_embed_dim` (`None`
initially) and `_embed_model` (`None` until trained).  `M` is the
type of trained models, opaque to this logic. -/
structure EmbedConfigState (M : Type) where
  relation : Option String
  use_feat : Bool
  kg_embed_dim : Option Nat
  embed_model : Option M

/-- Lines 297–307 of `embed`: set `requires_new_model` if the relation
column, the feature flag or the embedding dimension changed, updating
each stored field as it is compared; returns the updated state and
`requires_new_model` (stored as `_build_new_embedding_model`). -/
def updateModelFlags {M : Type} (st : EmbedConfigState M) (relation : String)
    (use_feat : Bool) (embedding_dim : Nat) : EmbedConfigState M × Bool :=
  let r1 : Bool := decide (st.relation ≠ some relation)
  let st1 := if r1 then { st with relation := some relation } else st
  let r2 : Bool := decide (st1.use_feat ≠ use_feat)
  let st2 := if r2 then { st1 with use_feat := use_feat } else st1
  let r3 : Bool := decide (st2.kg_embed_dim ≠ some embedding_dim)
  let st3 := if r3 then { st2 with kg_embed_dim := some embedding_dim } else st2
  (st3, r1 || r2 || r3)

/-- Lines 181–184 of `_train_embedding`: a fresh model is initialized,
but when `hasattr(res, "_embed_model")` (always true — the attribute is
set in `__init__`) and `_build_new_embedding_model` is false, the
stored `_embed_model` replaces it.  The result is the model whose
parameters training continues from (`none` models Python `None`). -/
def chooseModel {M : Type} (st : EmbedConfigState M) (build_new : Bool)
    (fresh : M) : Option M :=
  if build_new then some fresh else st.embed_model

/-! ### Concrete fixtures used by the closed theorems -/

/-- A two-node, one-relation registry: nodes A ↦ 0, B ↦ 1, relation
"knows" ↦ 0, with the inverse maps. -/
def regAB : Registry :=
  ⟨[("A", 0), ("B", 1)], [("knows", 0)], [(0, "A"), (1, "B")], [(0, "knows")]⟩

/-! ## Helper lemmas -/

theorem l1norm_nonneg (v : List ℚ) : 0 ≤ l1norm v := by
  apply List.sum_nonneg
  intro x hx
  rcases List.mem_map.mp hx with ⟨a, _, rfl⟩
  exact abs_nonneg a

theorem negTriplets_length (coins rh rt : Nat → Nat) :
    ∀ (i : Nat) (l : List Trip), (negTriplets coins rh rt i l).length = l.length := by
  intro i l
  induction l generalizing i with
  | nil => rfl
  | cons t ts ih => simp [negTriplets, ih]

theorem negTriplets_zip (coins rh rt : Nat → Nat) :
    ∀ (l : List Trip) (i : Nat), ∀ pr ∈ l.zip (negTriplets coins rh rt i l),
      pr.2.2.1 = pr.1.2.1 ∧ (pr.2.1 = pr.1.1 ∨ pr.2.2.2 = pr.1.2.2) := by
  intro l
  induction l with
  | nil => intro i pr hpr; simp [negTriplets] at hpr
  | cons t ts ih =>
      intro i pr hpr
      rw [negTriplets, List.zip_cons_cons] at hpr
      rcases List.mem_cons.mp hpr with h | h
      · subst h
        refine ⟨rfl, ?_⟩
        by_cases hc : coins i = 0
        · right
          simp [negTriplet, hc]
        · left
          simp [negTriplet, hc]
      · exact ih (i + 1) pr h

theorem negTriplets_bounds (coins rh rt : Nat → Nat) (n : Nat)
    (hrh : ∀ i, rh i < n) (hrt : ∀ i, rt i < n) :
    ∀ (l : List Trip) (i : Nat), (∀ t ∈ l, t.1 < n ∧ t.2.2 < n) →
      ∀ t ∈ negTriplets coins rh rt i l, t.1 < n ∧ t.2.2 < n := by
  intro l
  induction l with
  | nil => intro i _ t ht; simp [negTriplets] at ht
  | cons a as ih =>
      intro i hl t ht
      rw [negTriplets] at ht
      rcases List.mem_cons.mp ht with h | h
      · subst h
        have ha := hl a (List.mem_cons_self a as)
        constructor
        · by_cases hc : coins i = 0 <;> simp [negTriplet, hc, hrh i, ha.1]
        · by_cases hc : coins i = 1 <;> simp [negTriplet, hc, hrt i, ha.2]
      · exact ih (i + 1) (fun x hx => hl x (List.mem_cons_of_mem a hx)) t h

theorem range_ite_labels (E : Nat) :
    (List.range (E + E)).map (fun i => if i < E then (1 : Nat) else 0) =
      List.replicate E 1 ++ List.replicate E 0 := by
  rw [List.range_add, List.map_append, List.map_map]
  congr 1
  · rw [show (List.replicate E (1 : Nat)) = List.map (fun _ => (1 : Nat)) (List.range E) by
      rw [List.map_const', List.length_range]]
    apply List.map_congr_left
    intro a ha
    simp [List.mem_range.mp ha]
  · rw [show (List.replicate E (0 : Nat)) = List.map (fun _ => (0 : Nat)) (List.range E) by
      rw [List.map_const', List.length_range]]
    apply List.map_congr_left
    intro a _
    simp

theorem sample_neg_labels_eq (T : List Trip) (nn : Nat) (coins rh rt : Nat → Nat) :
    (sample_neg T nn coins rh rt).2 =
      List.replicate T.length 1 ++ List.replicate T.length 0 := by
  show (List.range (T ++ negTriplets coins rh rt 0 T).length).map
      (fun i => if i < T.length then (1 : Nat) else 0) = _
  rw [List.length_append, negTriplets_length]
  exact range_ite_labels T.length

/-- The positive triplet sampled at edge id `e` keeps ids bounded by the
full graph's node count (the out-of-range default `(0,0,0)` included). -/
theorem sampled_triplet_bounds (g : DGLGraph)
    (hE : ∀ t ∈ g.edges, t.1 < g.numNodes ∧ t.2.2 < g.numNodes)
    (hn : 0 < g.numNodes) (e : Nat) :
    (g.edges.getD e (0, 0, 0)).1 < g.numNodes ∧
      (g.edges.getD e (0, 0, 0)).2.2 < g.numNodes := by
  by_cases h : e < g.edges.length
  · rw [List.getD_eq_getElem g.edges (0, 0, 0) h]
    exact hE _ (g.edges.getElem_mem h)
  · rw [List.getD_eq_default g.edges (0, 0, 0) (Nat.le_of_not_lt h)]
    exact ⟨hn, hn⟩

/-! ## Claim theorems -/

/-- C6 counterexample: the claim says the RotatE score is non-negative,
but `RotatE` (line 56) returns the negated 1-norm: at
h = [1], r = [1], t = [0] it evaluates to −1 < 0, refuting the claim. -/
theorem RotatE_negative_at_unit :
    EmbedDistScore.RotatE [(1 : ℚ)] [1] [0] < 0 := by
  norm_num [EmbedDistScore.RotatE, l1norm]

/-- C6 amended: for every head, relation and tail vector, the TransE
score (line 48, the plain 1-norm of h + r − t) is non-negative, and the
RotatE score (line 56, the negated 1-norm of h⊙r − t) is non-positive. -/
theorem TransE_nonneg_and_RotatE_nonpos (h r t : List ℚ) :
    0 ≤ EmbedDistScore.TransE h r t ∧ EmbedDistScore.RotatE h r t ≤ 0 := by
  constructor
  · exact l1norm_nonneg _
  · exact neg_nonpos.mpr (l1norm_nonneg _)

/-- C8: `_sample_neg` returns exactly `2 * len(T)` triplets, the
positives first (the prefix of length `len(T)` is `T` itself) followed
by the same count of negatives, and the label vector carries exactly
`len(T)` ones — on the positive prefix — and `len(T)` zeros — on the
negative suffix. -/
theorem sample_neg_shape (T : List Trip) (nn : Nat) (coins rh rt : Nat → Nat) :
    (sample_neg T nn coins rh rt).1.length = 2 * T.length ∧
    (sample_neg T nn coins rh rt).1.take T.length = T ∧
    ((sample_neg T nn coins rh rt).1.drop T.length).length = T.length ∧
    (sample_neg T nn coins rh rt).2.count 1 = T.length ∧
    (sample_neg T nn coins rh rt).2.count 0 = T.length ∧
    (sample_neg T nn coins rh rt).2.take T.length = List.replicate T.length 1 ∧
    (sample_neg T nn coins rh rt).2.drop T.length = List.replicate T.length 0 := by
  have hlab := sample_neg_labels_eq T nn coins rh rt
  have hlen : (negTriplets coins rh rt 0 T).length = T.length :=
    negTriplets_length coins rh rt 0 T
  refine ⟨?_, ?_, ?_, ?_, ?_, ?_, ?_⟩
  · show (T ++ negTriplets coins rh rt 0 T).length = 2 * T.length
    rw [List.length_append, hlen, Nat.two_mul]
  · show (T ++ negTriplets coins rh rt 0 T).take T.length = T
    exact List.take_left T _
  · show ((T ++ negTriplets coins rh rt 0 T).drop T.length).length = T.length
    rw [List.drop_left T _, hlen]
  · rw [hlab]
    simp [List.count_append, List.count_replicate]
  · rw [hlab]
    simp [List.count_append, List.count_replicate]
  · rw [hlab]
    rw [List.take_left' (by simp)]
  · rw [hlab]
    rw [List.drop_left' (by simp)]

/-- C3 counterexample: the claim says every negative triplet differs
from its source positive in exactly one of head or tail; but the
`torch.randint(high=num_nodes)` draw can redraw the original id (no
collision filtering, lines 517–521).  With positive (0,0,1),
num_nodes = 2, coin 0 (corrupt the head) and random head draw 0, the
produced negative is (0,0,1) — identical to its positive, differing in
neither position. -/
theorem sample_neg_collision :
    (sample_neg [((0 : Nat), (0 : Nat), (1 : Nat))] 2
        (fun _ => 0) (fun _ => 0) (fun _ => 0)).1 = [(0, 0, 1), (0, 0, 1)] := by
  rfl

/-- C3 amended: every negative triplet produced by `_sample_neg`
differs from its source positive in AT MOST one of the head or the
tail position (the corrupted position may redraw the original id),
never in both positions and never in the relation: pairing each
positive with its negative, the relation ids agree and at least one of
the head or the tail is carried over unchanged. -/
theorem sample_neg_at_most_one_corruption (T : List Trip) (nn : Nat)
    (coins rh rt : Nat → Nat) (pr : Trip × Trip)
    (hpr : pr ∈ T.zip ((sample_neg T nn coins rh rt).1.drop T.length)) :
    pr.2.2.1 = pr.1.2.1 ∧ (pr.2.1 = pr.1.1 ∨ pr.2.2.2 = pr.1.2.2) := by
  have hdrop : (sample_neg T nn coins rh rt).1.drop T.length =
      negTriplets coins rh rt 0 T := List.drop_left T _
  rw [hdrop] at hpr
  exact negTriplets_zip coins rh rt T 0 pr hpr

/-- C3 amended witness: with positive (0,0,1) and head-corruption draw
1, the negative is (1,0,1); the relation agrees and the tail is carried
over unchanged. -/
theorem sample_neg_at_most_one_corruption_witness :
    (((0 : Nat), (0 : Nat), (1 : Nat)), ((1 : Nat), (0 : Nat), (1 : Nat))).2.2.1 =
        (((0 : Nat), (0 : Nat), (1 : Nat)), ((1 : Nat), (0 : Nat), (1 : Nat))).1.2.1 ∧
      ((((0 : Nat), (0 : Nat), (1 : Nat)), ((1 : Nat), (0 : Nat), (1 : Nat))).2.1 =
          (((0 : Nat), (0 : Nat), (1 : Nat)), ((1 : Nat), (0 : Nat), (1 : Nat))).1.1 ∨
        (((0 : Nat), (0 : Nat), (1 : Nat)), ((1 : Nat), (0 : Nat), (1 : Nat))).2.2.2 =
          (((0 : Nat), (0 : Nat), (1 : Nat)), ((1 : Nat), (0 : Nat), (1 : Nat))).1.2.2) :=
  sample_neg_at_most_one_corruption [((0 : Nat), (0 : Nat), (1 : Nat))] 2
    (fun _ => 0) (fun _ => 1) (fun _ => 0)
    (((0 : Nat), (0 : Nat), (1 : Nat)), ((1 : Nat), (0 : Nat), (1 : Nat)))
    (by decide)

/-- C1: the threshold filter of `predict_links` is dead code.  With the
two-node registry, test row (A, "knows"), the constant score 0 on every
candidate and threshold 0.95, no candidate reaches the threshold — yet
the returned frame still contains the candidate row (A, "knows", B),
because lines 371–377 rebuild `result_df` from the unfiltered frame,
overwriting the frame filtered at lines 367–370.  The second conjunct
records that the (constant) score of every candidate is strictly below
the threshold, so under the claim the result would have to be empty. -/
theorem predict_links_threshold_discarded :
    predict_links regAB (fun _ => 0) (95 / 100) false [("A", "knows")] =
        [(some "A", some "knows", some "B")] ∧
      (0 : ℚ) < 95 / 100 := by
  constructor
  · rfl
  · norm_num

/-- C7: a test row whose source label "C" is absent from the registry
is neither dropped nor flagged by `predict_links`: its source id maps
to NaN (`none`), the NaN row survives the self-loop filter (NaN ≠ id
in pandas), is handed to the scorer together with the known rows
(line 365 casts the NaN through float32 to int64), and comes back in
the returned frame with a NaN source label. -/
theorem predict_links_unknown_label_scored :
    candidateRows regAB.node2id regAB.relation2id [("C", "knows")] =
        [(none, some 0, 0), (none, some 0, 1)] ∧
      predict_links regAB (fun _ => 0) (95 / 100) false [("C", "knows")] =
        [(none, some "knows", some "A"), (none, some "knows", some "B")] := by
  constructor
  · rfl
  · rfl

/-- C9: every row of the frame returned by `predict_links` is the
label-image of a candidate row that survived the self-loop filter of
line 363, i.e. one whose source id differs from its predicted
destination id — so a self-loop (source id = destination id) is
excluded from the candidate set before scoring and never reappears in
the output, for every registry, score function, threshold (including
the accept-all threshold 0) and anomaly flag. -/
theorem predict_links_no_self_loops (reg : Registry) (score : Candidate → ℚ)
    (threshold : ℚ) (anomalous : Bool) (rows : List (String × String))
    (r : Option String × Option String × Option String)
    (hr : r ∈ predict_links reg score threshold anomalous rows) :
    ∃ c, c ∈ candidateRows reg.node2id reg.relation2id rows ∧
      c.1 ≠ some c.2.2 ∧ r = labelRow reg c := by
  have hmem : r ∈ (candidateRows reg.node2id reg.relation2id rows).map
      (labelRow reg) := hr
  rcases List.mem_map.mp hmem with ⟨c, hc, hcr⟩
  refine ⟨c, hc, ?_, hcr.symm⟩
  have := List.mem_filter.mp hc
  exact of_decide_eq_true this.2

/-- C9 witness: with the two-node registry and test row (A, "knows")
at threshold 0 (accept-all), the returned row (A, "knows", B) comes
from the candidate (0, 0, 1), whose destination id 1 differs from its
source id 0. -/
theorem predict_links_no_self_loops_witness :
    ∃ c, c ∈ candidateRows regAB.node2id regAB.relation2id [("A", "knows")] ∧
      c.1 ≠ some c.2.2 ∧
      ((some "A", some "knows", some "B") :
        Option String × Option String × Option String) = labelRow regAB c :=
  predict_links_no_self_loops regAB (fun _ => 0) 0 false [("A", "knows")]
    (some "A", some "knows", some "B")
    (List.mem_singleton.mpr rfl)

/-- C2 counterexample: `__getitem__` performs no relabeling.  On a
5-node graph with the single edge (3, rel 0, 4), sampling that edge
gives the positive triplet (3, 0, 4): the distinct endpoints of the
sampled edges number 2, yet the yielded triplets keep the global ids 3
and 4 (both ≥ 2), the corruption draw 4 — legal for
`torch.randint(high=self.num_nodes)`, the FULL graph's node count —
produces the negative (4, 0, 4) with replacement id 4 ≥ 2 outside the
claimed local universe [0, 2), and the mini-batch graph is built with
num_nodes = 5, not 2. -/
theorem getItem_not_relabeled :
    (distinctEndpoints
        ((SubgraphIterator.getItem ⟨5, [(3, 0, 4)]⟩ [0]
            (fun _ => 0) (fun _ => 4) (fun _ => 0)).2.1.take 1)).length = 2 ∧
      (SubgraphIterator.getItem ⟨5, [(3, 0, 4)]⟩ [0]
          (fun _ => 0) (fun _ => 4) (fun _ => 0)).2.1 = [(3, 0, 4), (4, 0, 4)] ∧
      (SubgraphIterator.getItem ⟨5, [(3, 0, 4)]⟩ [0]
          (fun _ => 0) (fun _ => 4) (fun _ => 0)).1.numNodes = 5 := by
  refine ⟨rfl, rfl, rfl⟩

/-- C2 amended: the subgraph batcher keeps the full graph's node id
space: the yielded item's graph has `num_nodes` equal to the FULL
graph's node count, the first `sample_size` yielded triplets are
exactly the sampled edges with their global ids, and — because
`_sample_neg` is called with the full node count as the corruption
universe — every yielded endpoint id (positive or corrupted) is below
the FULL graph's node count, not the distinct-endpoint count. -/
theorem getItem_keeps_global_ids (g : DGLGraph) (eids : List Nat)
    (coins rh rt : Nat → Nat)
    (hE : ∀ t ∈ g.edges, t.1 < g.numNodes ∧ t.2.2 < g.numNodes)
    (hrh : ∀ i, rh i < g.numNodes) (hrt : ∀ i, rt i < g.numNodes)
    (hn : 0 < g.numNodes) :
    (SubgraphIterator.getItem g eids coins rh rt).1.numNodes = g.numNodes ∧
    (SubgraphIterator.getItem g eids coins rh rt).2.1.take eids.length =
      eids.map (fun e => g.edges.getD e (0, 0, 0)) ∧
    ∀ t ∈ (SubgraphIterator.getItem g eids coins rh rt).2.1,
      t.1 < g.numNodes ∧ t.2.2 < g.numNodes := by
  have hpos : ∀ t ∈ eids.map (fun e => g.edges.getD e (0, 0, 0)),
      t.1 < g.numNodes ∧ t.2.2 < g.numNodes := by
    intro t ht
    rcases List.mem_map.mp ht with ⟨e, _, rfl⟩
    exact sampled_triplet_bounds g hE hn e
  refine ⟨rfl, ?_, ?_⟩
  · show ((eids.map fun e => g.edges.getD e (0, 0, 0)) ++
        negTriplets coins rh rt 0 (eids.map fun e => g.edges.getD e (0, 0, 0))).take
        eids.length = _
    exact List.take_left' (List.length_map eids _)
  · intro t ht
    have ht' : t ∈ (eids.map fun e => g.edges.getD e (0, 0, 0)) ++
        negTriplets coins rh rt 0 (eids.map fun e => g.edges.getD e (0, 0, 0)) := ht
    rcases List.mem_append.mp ht' with h | h
    · exact hpos t h
    · exact negTriplets_bounds coins rh rt g.numNodes hrh hrt _ 0 hpos t h

/-- C2 amended witness: a 2-node graph with the edge (0, 0, 1), sample
[edge 0], head-corruption draw 1: the yielded graph keeps num_nodes 2,
the positive prefix is the sampled edge with its global ids, and every
yielded endpoint is below the full node count 2. -/
theorem getItem_keeps_global_ids_witness :
    (SubgraphIterator.getItem ⟨2, [(0, 0, 1)]⟩ [0]
        (fun _ => 0) (fun _ => 1) (fun _ => 0)).1.numNodes =
      (⟨2, [(0, 0, 1)]⟩ : DGLGraph).numNodes ∧
    (SubgraphIterator.getItem ⟨2, [(0, 0, 1)]⟩ [0]
        (fun _ => 0) (fun _ => 1) (fun _ => 0)).2.1.take ([0] : List Nat).length =
      ([0] : List Nat).map (fun e => (⟨2, [(0, 0, 1)]⟩ : DGLGraph).edges.getD e (0, 0, 0)) ∧
    ∀ t ∈ (SubgraphIterator.getItem ⟨2, [(0, 0, 1)]⟩ [0]
        (fun _ => 0) (fun _ => 1) (fun _ => 0)).2.1,
      t.1 < (⟨2, [(0, 0, 1)]⟩ : DGLGraph).numNodes ∧
        t.2.2 < (⟨2, [(0, 0, 1)]⟩ : DGLGraph).numNodes :=
  getItem_keeps_global_ids ⟨2, [(0, 0, 1)]⟩ [0] (fun _ => 0) (fun _ => 1) (fun _ => 0)
    (by decide) (fun _ => show (1 : Nat) < 2 by decide)
    (fun _ => show (0 : Nat) < 2 by decide) (by decide)

/-- C5 counterexample: the split size is `int(train_split * E)`, a
truncation (floor), not a rounding.  With E = 3 triplets and split
fraction 1/2, the code draws a training set of size 1, while
round(1/2 · 3) = 2. -/
theorem random_split_floor_not_round :
    ((random_split 3 (1 / 2) [0, 1, 2]).1).length = 1 ∧
      round ((1 : ℚ) / 2 * 3) = 2 := by
  constructor
  · show (List.take (⌊(1 : ℚ) / 2 * ((3 : Nat) : ℚ)⌋).toNat [0, 1, 2]).length = 1
    norm_num
  · norm_num [round_eq]

/-- C5 amended: for every split fraction p ∈ (0,1) and every draw of
the shuffle permutation, the computed train/test split is a disjoint
partition of all E row indices with
len(train_idx) = ⌊p·E⌋ (the value of Python `int(p * E)`) and
len(test_idx) = E − ⌊p·E⌋. -/
theorem random_split_partition (p : ℚ) (E : Nat) (perm : List Nat)
    (hp0 : 0 < p) (hp1 : p < 1) (hperm : perm.Perm (List.range E)) :
    ((random_split E p perm).1).length = (⌊p * (E : ℚ)⌋).toNat ∧
    ((random_split E p perm).2).length = E - (⌊p * (E : ℚ)⌋).toNat ∧
    ((random_split E p perm).1).Disjoint ((random_split E p perm).2) ∧
    ((random_split E p perm).1 ++ (random_split E p perm).2).Perm (List.range E) := by
  have hlen : perm.length = E := hperm.length_eq.trans (List.length_range E)
  have hkE : (⌊p * (E : ℚ)⌋).toNat ≤ E := by
    have h1 : p * (E : ℚ) ≤ (E : ℚ) :=
      mul_le_of_le_one_left (Nat.cast_nonneg E) hp1.le
    have h2 : ⌊p * (E : ℚ)⌋ ≤ (E : ℤ) := by
      have := Int.floor_le_floor h1
      rwa [Int.floor_natCast] at this
    omega
  have hnodup : perm.Nodup := hperm.symm.nodup (List.nodup_range E)
  refine ⟨?_, ?_, ?_, ?_⟩
  · show (perm.take (⌊p * (E : ℚ)⌋).toNat).length = _
    rw [List.length_take, hlen, Nat.min_eq_left hkE]
  · show (perm.drop (⌊p * (E : ℚ)⌋).toNat).length = _
    rw [List.length_drop, hlen]
  · exact List.disjoint_take_drop hnodup le_rfl
  · show (perm.take _ ++ perm.drop _).Perm (List.range E)
    rw [List.take_append_drop]
    exact hperm

/-- C5 amended witness: p = 1/2, E = 3, shuffle [2, 0, 1]: the split is
([2], [0, 1]) — sizes ⌊3/2⌋ = 1 and 2, disjoint, and together a
permutation of the indices 0, 1, 2. -/
theorem random_split_partition_witness :
    ((random_split 3 (1 / 2) [2, 0, 1]).1).length = (⌊(1 : ℚ) / 2 * ((3 : Nat) : ℚ)⌋).toNat ∧
    ((random_split 3 (1 / 2) [2, 0, 1]).2).length = 3 - (⌊(1 : ℚ) / 2 * ((3 : Nat) : ℚ)⌋).toNat ∧
    ((random_split 3 (1 / 2) [2, 0, 1]).1).Disjoint ((random_split 3 (1 / 2) [2, 0, 1]).2) ∧
    ((random_split 3 (1 / 2) [2, 0, 1]).1 ++ (random_split 3 (1 / 2) [2, 0, 1]).2).Perm
      (List.range 3) :=
  random_split_partition (1 / 2) 3 [2, 0, 1] (by norm_num) (by norm_num) (by decide)

/-- C4: on a fresh instance, `embed(evaluate=True, train_split=1)` does
NOT skip evaluation with a warning: preprocessing splits the single
triplet into `train_idx = [0]` and `test_idx = []` — an empty LIST, not
`None` — so `_train_embedding` enters `_eval` (its guard checks
`train_idx is not None`), `_eval` takes its non-warning branch (its
guard checks `test_idx is not None`, and `[]` is not `None`), scores
the empty held-out set and evaluates `len(...) / len(score)` with
`len(score) == 0`: a `ZeroDivisionError`, where the claim promises a
warning and normal completion. -/
theorem embed_eval_zero_division :
    embed_eval_path ⟨[(0, 0, 1)], none, none, none⟩ 1 true 2 [0] (fun _ => 0) =
      some EvalOutcome.zeroDivisionError := by
  have hsize : (⌊(1 : ℚ) * (([(0, 0, 1)] : List Trip).length : ℚ)⌋).toNat = 1 := by
    norm_num
  have hst : preprocess_split ⟨[(0, 0, 1)], none, none, some 1⟩ 1 [0] =
      (⟨[(0, 0, 1)], some [0], some [], some 1⟩ : TrainState) := by
    simp only [preprocess_split, random_split, hsize]
    simp
  show (if 0 < 2 ∧ true = true ∧
      (preprocess_split ⟨[(0, 0, 1)], none, none, some 1⟩ 1 [0]).train_idx ≠ none
    then some (eval_step (fun _ => 0) (1 / 2)
      (preprocess_split ⟨[(0, 0, 1)], none, none, some 1⟩ 1 [0]))
    else none) = some EvalOutcome.zeroDivisionError
  rw [hst]
  rw [if_pos ⟨by norm_num, rfl, by simp⟩]
  simp [eval_step]

/-- C10: if the stored state matches the arguments of a repeated
`embed` call — same relation column, same `use_feat` flag, same
embedding dimension — and a trained model is stored, then
`requires_new_model` (stored as `_build_new_embedding_model`) is false
and `_train_embedding` discards the freshly initialized model in favor
of the stored one, so training continues from the stored model's
parameters. -/
theorem embed_warm_start_reuses_model (M : Type) (st : EmbedConfigState M)
    (rel : String) (uf : Bool) (dim : Nat) (fresh m : M)
    (h1 : st.relation = some rel) (h2 : st.use_feat = uf)
    (h3 : st.kg_embed_dim = some dim) (h4 : st.embed_model = some m) :
    (updateModelFlags st rel uf dim).2 = false ∧
      chooseModel (updateModelFlags st rel uf dim).1
        (updateModelFlags st rel uf dim).2 fresh = some m := by
  simp [updateModelFlags, chooseModel, h1, h2, h3, h4]

/-- C10 witness: stored state (relation "knows", use_feat false,
dim 32, trained model 7); a second call with the same arguments keeps
`requires_new_model` false and reuses model 7 instead of the fresh
model 5. -/
theorem embed_warm_start_reuses_model_witness :
    (updateModelFlags (⟨some "knows", false, some 32, some 7⟩ : EmbedConfigState Nat)
        "knows" false 32).2 = false ∧
      chooseModel
        (updateModelFlags (⟨some "knows", false, some 32, some 7⟩ : EmbedConfigState Nat)
          "knows" false 32).1
        (updateModelFlags (⟨some "knows", false, some 32, some 7⟩ : EmbedConfigState Nat)
          "knows" false 32).2 5 = some 7 :=
  embed_warm_start_reuses_model Nat ⟨some "knows", false, some 32, some 7⟩
    "knows" false 32 5 7 rfl rfl rfl rfl

end EmbedUtils
